import Mathlib

/-!
Verification of the SignalGraph intelligence CLI skeleton
(`intelligence-python/main.py`) against its specification.

The script is modelled by a shallow embedding: the filesystem the script
reads is an abstract read-only structure `FS` (which node a path names,
which entries a directory contains, and what `Path.read_text` yields for a
path), and each Python function (`list_files`, `preview_file`,
`process_file`, `process_files`, `main`) becomes a Lean function over `FS`.
Python exceptions are modelled with `Except`: a raised exception is
`Except.error`, normal return is `Except.ok`.
-/

namespace SignalGraph

/-- Kind of filesystem node a path names, as distinguished by
`Path.is_file` / `Path.is_dir`; `other` covers non-regular entries
(sockets, devices, ...). -/
inductive NodeKind where
  | file
  | dir
  | other
deriving DecidableEq

/-- One directory entry: the entry's final name component (`Path.name`)
and the kind of node it names. -/
structure Entry where
  name : String
  kind : NodeKind
deriving DecidableEq

/-- Abstract read-only filesystem snapshot.
`node p` is `none` when `p.exists()` is false, otherwise the kind of node;
`children d` lists the entries `d.iterdir()` would yield for a directory;
`readText p` is the outcome of `p.read_text(encoding="utf-8")`: the decoded
content, or the message of the exception it raises.  `read_text` opens the
file in text mode with universal newlines, so a decoded content never
contains a carriage return: every `\r` and `\r\n` of the raw file has
already been translated to `\n` (other line-break characters such as
vertical tab, form feed, NEL, U+2028 and U+2029 pass through untouched). -/
structure FS where
  node : String → Option NodeKind
  children : String → List Entry
  readText : String → Except String String

/-- Python string comparison on the underlying code-point sequences:
lexicographic, locale-independent, by `Char` code point. -/
def charListLe : List Char → List Char → Bool
  | [], _ => true
  | _ :: _, [] => false
  | a :: as, b :: bs =>
    if a.toNat < b.toNat then true
    else if b.toNat < a.toNat then false
    else charListLe as bs

/-- `a <= b` for Python strings: code-point lexicographic order. -/
def strLe (a b : String) : Bool :=
  charListLe a.data b.data

/-- The full path of a directory entry, `dir / name` in `pathlib`. -/
def childPath (dir : String) (name : String) : String :=
  dir ++ "/" ++ name

/-- `list_files(path)`: `[]` when the path does not exist, otherwise the
entries of the directory that are regular files, sorted by name
(`sorted(files, key=lambda p: p.name)`, a stable sort).  `Path.iterdir()`
on an existing non-directory raises `NotADirectoryError`, modelled as
`Except.error`. -/
def list_files (fs : FS) (path : String) : Except String (List Entry) :=
  if (fs.node path).isNone then .ok []
  else if fs.node path = some NodeKind.dir then
    .ok (((fs.children path).filter (fun e => e.kind == NodeKind.file)).mergeSort
      (fun a b => strLe a.name b.name))
  else .error "NotADirectoryError"

/-- Python `text[:n]`: the first `n` characters (code points) of `text`. -/
def pySlice (text : String) (n : Nat) : String :=
  ⟨text.data.take n⟩

/-- Python `text.replace("\n", " ")`: every LF character becomes one
space; all other characters are unchanged. -/
def replaceNewlines (text : String) : String :=
  ⟨text.data.map (fun c => if c = '\n' then ' ' else c)⟩

/-- `preview_file(p, length)`: on a successful read, the first `length`
characters with newlines replaced by spaces; when `read_text` raises, the
exception is folded into the diagnostic string (the `except` branch). -/
def preview_file (fs : FS) (p : String) (length : Nat) : String :=
  match fs.readText p with
  | .ok text => replaceNewlines (pySlice text length)
  | .error e => "<error reading file: " ++ e ++ ">"

/-- The `provenance` mapping of a record, `{"source": str(p)}`. -/
structure Provenance where
  source : String
deriving DecidableEq

/-- The structured record `process_file` builds for one file.  The
`entities` and `relations` placeholder lists are always empty in this
version, so their element type is irrelevant; `Unit` stands in for the
reserved dict shape. -/
structure FileRecord where
  file : String
  preview : String
  entities : List Unit
  relations : List Unit
  provenance : Provenance
deriving DecidableEq

/-- `process_file(p)`: one record with the default preview bound 200,
empty placeholder lists and the source path as provenance. -/
def process_file (fs : FS) (p : String) : FileRecord :=
  { file := p
    preview := preview_file fs p 200
    entities := []
    relations := []
    provenance := { source := p } }

/-- The top-level output object `{"files": [...]}`. -/
structure ResultSet where
  files : List FileRecord
deriving DecidableEq

/-- `process_files(paths)`: starts from `{"files": []}` and appends one
record per path in a loop, in input order. -/
def process_files (fs : FS) (paths : List String) : ResultSet :=
  { files := paths.foldl (fun acc p => acc ++ [process_file fs p]) [] }

/-- Observable outcome of one run of `main`: the process exit status, the
log lines printed, and the `ResultSet` that is serialized to JSON (to
stdout or to `--output`); `none` when the run produced no JSON. -/
structure RunResult where
  exitCode : Nat
  logLines : List String
  output : Option ResultSet
deriving DecidableEq

/-- The directory branch of `main`: discover files in `--data-dir`, log
the count, process them all.  An exception escaping `list_files`
propagates (no handler in `main`). -/
def dirMode (fs : FS) (dataDir : String) : Except String RunResult :=
  match list_files fs dataDir with
  | .error e => .error e
  | .ok entries =>
    let paths := entries.map (fun en => childPath dataDir en.name)
    .ok { exitCode := 0
          logLines := ["[intelligence] discovered " ++ toString paths.length
            ++ " files in " ++ dataDir]
          output := some (process_files fs paths) }

/-- `main(data_dir, file)`: `if args.file:` is Python truthiness, so both
`None` and the empty string select the directory branch; a named file that
does not exist prints an error and raises `SystemExit(2)` (exit status 2,
no JSON); otherwise the single file is processed with exit status 0. -/
def main (fs : FS) (dataDir : String) (fileArg : Option String) :
    Except String RunResult :=
  match fileArg with
  | some f =>
    if f = "" then dirMode fs dataDir
    else if (fs.node f).isNone then
      .ok { exitCode := 2
            logLines := ["[intelligence] error: file not found: " ++ f]
            output := none }
    else
      .ok { exitCode := 0
            logLines := ["[intelligence] processing single file: " ++ f]
            output := some { files := [process_file fs f] } }
  | none => dirMode fs dataDir

/-- Line-break characters: LF, CR, the other ASCII vertical-space
controls, NEL, and the Unicode line and paragraph separators (the
boundaries Python's `str.splitlines` recognises). -/
def isLineBreakChar (c : Char) : Bool :=
  c = '\n' || c = '\r' || c = '\x0b' || c = '\x0c' ||
    c = '\x1c' || c = '\x1d' || c = '\x1e' || c = '\u0085' ||
    c = '\u2028' || c = '\u2029'

/-- Concrete filesystem from the specification's scenario: `data` holds
`b.txt` (content `"hello\nworld"`) and `a.txt` (content `"xy"`). -/
def fsOk : FS :=
  { node := fun p =>
      if p = "data" then some NodeKind.dir
      else if p = "data/a.txt" then some NodeKind.file
      else if p = "data/b.txt" then some NodeKind.file
      else none
    children := fun p =>
      if p = "data" then [⟨"b.txt", NodeKind.file⟩, ⟨"a.txt", NodeKind.file⟩]
      else []
    readText := fun p =>
      if p = "data/a.txt" then .ok "xy"
      else if p = "data/b.txt" then .ok "hello\nworld"
      else .error "No such file or directory" }

/-- Concrete filesystem whose one file cannot be read: `data` is an empty
directory and reading any path raises a permission error. -/
def fsErr : FS :=
  { node := fun p =>
      if p = "data" then some NodeKind.dir
      else if p = "data/bad.txt" then some NodeKind.file
      else none
    children := fun _ => []
    readText := fun _ => .error "Permission denied" }

/-- Concrete empty filesystem: no path exists. -/
def fsEmpty : FS :=
  { node := fun _ => none
    children := fun _ => []
    readText := fun _ => .error "No such file or directory" }

/-- Concrete filesystem with one readable file whose decoded content
holds a vertical tab: unlike a carriage return, which universal-newline
decoding would have turned into LF, a `\x0b` in the raw file survives
`read_text` unchanged, so this is a realizable `read_text` outcome. -/
def fsVt : FS :=
  { node := fun p => if p = "data/vt.txt" then some NodeKind.file else none
    children := fun _ => []
    readText := fun p =>
      if p = "data/vt.txt" then .ok "a\x0bb" else .error "No such file" }

/-- `charListLe` is total: one of the two comparisons always holds. -/
theorem charListLe_total : ∀ as bs : List Char,
    charListLe as bs = true ∨ charListLe bs as = true := by
  intro as
  induction as with
  | nil => intro bs; left; rfl
  | cons a as ih =>
    intro bs
    match bs with
    | [] => right; rfl
    | b :: bs =>
      simp only [charListLe]
      by_cases h1 : a.toNat < b.toNat <;> by_cases h2 : b.toNat < a.toNat <;>
        simp only [h1, h2, if_true, if_false] <;>
          first
            | omega
            | (left; trivial)
            | (right; trivial)
            | exact ih bs

/-- `charListLe` is transitive. -/
theorem charListLe_trans : ∀ as bs cs : List Char,
    charListLe as bs = true → charListLe bs cs = true →
    charListLe as cs = true := by
  intro as
  induction as with
  | nil => intro bs cs _ _; rfl
  | cons a as ih =>
    intro bs cs hab hbc
    match bs, cs with
    | [], _ => simp [charListLe] at hab
    | b :: bs, [] => simp [charListLe] at hbc
    | b :: bs, c :: cs =>
      simp only [charListLe] at hab hbc ⊢
      by_cases h1 : a.toNat < b.toNat <;> by_cases h2 : b.toNat < a.toNat <;>
        by_cases h3 : b.toNat < c.toNat <;> by_cases h4 : c.toNat < b.toNat <;>
          by_cases h5 : a.toNat < c.toNat <;> by_cases h6 : c.toNat < a.toNat <;>
            simp only [h1, h2, h3, h4, h5, h6, if_true, if_false] at hab hbc ⊢ <;>
              first
                | rfl
                | omega
                | exact ih bs cs hab hbc
                | simp at hab
                | simp at hbc

/-- `strLe` is transitive. -/
theorem strLe_trans {a b c : String} (hab : strLe a b = true)
    (hbc : strLe b c = true) : strLe a c = true :=
  charListLe_trans a.data b.data c.data hab hbc

/-- `strLe` is total. -/
theorem strLe_total (a b : String) : (strLe a b || strLe b a) = true := by
  rcases charListLe_total a.data b.data with h | h <;> simp [strLe, h]

/-- Two strings with the same character list are equal. -/
theorem string_eq_of_data {a b : String} (h : a.data = b.data) : a = b := by
  cases a
  cases b
  exact congrArg String.mk h

/-- The loop of `process_files` appends one record per path: `foldl` with
append is `map`. -/
theorem foldl_append_records (fs : FS) :
    ∀ (paths : List String) (acc : List FileRecord),
      paths.foldl (fun acc p => acc ++ [process_file fs p]) acc =
        acc ++ paths.map (process_file fs) := by
  intro paths
  induction paths with
  | nil => intro acc; simp
  | cons p ps ih => intro acc; simp [List.foldl, ih]

/-- Replacing newlines is character-for-character: length is preserved. -/
theorem replaceNewlines_length (s : String) :
    (replaceNewlines s).length = s.length :=
  List.length_map s.data (fun c => if c = '\n' then ' ' else c)

/-- The length of a Python slice `text[:n]` is the minimum of `n` and the
text's length. -/
theorem pySlice_length (text : String) (n : Nat) :
    (pySlice text n).length = min n text.length :=
  List.length_take n text.data

/-- The character `\n` never survives `replaceNewlines`. -/
theorem newline_not_mem_replaceNewlines (s : String) :
    '\n' ∉ (replaceNewlines s).data := by
  intro hmem
  rcases List.mem_map.mp hmem with ⟨c, _, hc⟩
  by_cases h : c = '\n'
  · rw [if_pos h] at hc
    exact absurd hc (by decide)
  · rw [if_neg h] at hc
    exact h hc

/-- `list_files` on a nonexistent path returns the empty list. -/
theorem list_files_missing (fs : FS) (p : String) (h : fs.node p = none) :
    list_files fs p = .ok [] := by
  simp [list_files, h]

/-- A directory-mode run on a nonexistent data directory: exit code 0 and
the empty result set. -/
theorem main_missing_dir_ok (fs : FS) (d : String) (h : fs.node d = none) :
    ∃ r, main fs d none = .ok r ∧ r.exitCode = 0 ∧
      r.output = some { files := [] } := by
  have hl : list_files fs d = .ok [] := list_files_missing fs d h
  simp only [main, dirMode, hl]
  exact ⟨_, rfl, rfl, rfl⟩

/-- Claim C1: for every file path and every failure of reading or decoding,
`preview_file` never raises: it is a total function whose failure branch
returns the bracketed diagnostic string `<error reading file: ...>`, which
contains the substring `error reading file`, and a surrounding
directory-mode run still completes with exit code 0. -/
theorem preview_error_never_raises (fs : FS) (p e : String) (n : Nat)
    (h : fs.readText p = .error e) (d : String) (l : List Entry)
    (hl : list_files fs d = .ok l) :
    preview_file fs p n = "<error reading file: " ++ e ++ ">" ∧
    (∃ u v, preview_file fs p n = u ++ "error reading file" ++ v) ∧
    (∃ r, main fs d none = .ok r ∧ r.exitCode = 0) := by
  have hp : preview_file fs p n = "<error reading file: " ++ e ++ ">" := by
    simp [preview_file, h]
  refine ⟨hp, ⟨"<", ": " ++ (e ++ ">"), ?_⟩, ?_⟩
  · rw [hp]
    apply string_eq_of_data
    simp [String.data_append]
  · simp only [main, dirMode, hl]
    exact ⟨_, rfl, rfl⟩

theorem preview_error_never_raises_witness :
    preview_file fsErr "data/bad.txt" 200 =
      "<error reading file: " ++ "Permission denied" ++ ">" ∧
    (∃ u v, preview_file fsErr "data/bad.txt" 200 =
      u ++ "error reading file" ++ v) ∧
    (∃ r, main fsErr "data" none = .ok r ∧ r.exitCode = 0) :=
  preview_error_never_raises fsErr "data/bad.txt" "Permission denied" 200 rfl
    "data" [] (by simp [list_files, fsErr])

/-- Claim C2 (counterexample): it is not true that `preview_file` always
returns a string of length at most the configured bound: the failure
branch returns the diagnostic string untruncated.  With bound 1 and a
permission error, the returned string has length 39. -/
theorem preview_length_bound_cex :
    ¬ ∀ (fs : FS) (p : String) (n : Nat),
        (preview_file fs p n).length ≤ n := by
  intro h
  exact absurd (h fsErr "data/bad.txt" 1) (by decide)

/-- Claim C2 (amended): on every successful read the preview length is at
most the bound; on a read failure the result is the diagnostic string,
whose length is the error message's length plus 22 and is not truncated
to the bound. -/
theorem preview_length_bound_amended (fs : FS) (p : String) (n : Nat) :
    (∀ text, fs.readText p = .ok text → (preview_file fs p n).length ≤ n) ∧
    (∀ e, fs.readText p = .error e →
      (preview_file fs p n).length = e.length + 22) := by
  constructor
  · intro text h
    simp only [preview_file, h]
    rw [replaceNewlines_length, pySlice_length]
    omega
  · intro e h
    simp [preview_file, h, String.length_append]
    have h1 : ("<error reading file: " : String).length = 21 := by decide
    have h2 : (">" : String).length = 1 := by decide
    omega

theorem preview_length_bound_amended_witness :
    (preview_file fsOk "data/a.txt" 1).length ≤ 1 ∧
    (preview_file fsErr "data/bad.txt" 1).length =
      ("Permission denied" : String).length + 22 :=
  ⟨(preview_length_bound_amended fsOk "data/a.txt" 1).1 "xy" rfl,
   (preview_length_bound_amended fsErr "data/bad.txt" 1).2 "Permission denied"
     rfl⟩

/-- Claim C5: for every successfully decoded text file of length `L` and
bound `n`: if `n ≤ L` the preview has exactly `n` characters and contains
no LF; if `L < n` the preview is the full content with newlines replaced
by spaces. -/
theorem preview_truncation_exact (fs : FS) (p text : String) (n : Nat)
    (h : fs.readText p = .ok text) :
    (n ≤ text.length →
      (preview_file fs p n).length = n ∧
      '\n' ∉ (preview_file fs p n).data) ∧
    (text.length < n → preview_file fs p n = replaceNewlines text) := by
  constructor
  · intro hn
    constructor
    · simp only [preview_file, h]
      rw [replaceNewlines_length, pySlice_length]
      omega
    · simp only [preview_file, h]
      exact newline_not_mem_replaceNewlines _
  · intro hn
    simp only [preview_file, h]
    have hTake : text.data.take n = text.data := by
      apply List.take_of_length_le
      have : text.length = text.data.length := rfl
      omega
    show replaceNewlines (pySlice text n) = replaceNewlines text
    unfold pySlice
    rw [hTake]

theorem preview_truncation_exact_witness :
    ((preview_file fsOk "data/b.txt" 2).length = 2 ∧
      '\n' ∉ (preview_file fsOk "data/b.txt" 2).data) ∧
    preview_file fsOk "data/b.txt" 200 = replaceNewlines "hello\nworld" :=
  ⟨(preview_truncation_exact fsOk "data/b.txt" "hello\nworld" 2 rfl).1
      (by decide),
   (preview_truncation_exact fsOk "data/b.txt" "hello\nworld" 200 rfl).2
      (by decide)⟩

/-- Claim C6 (counterexample): it is not true that a successfully decoded
preview contains no line-break character of any kind: only LF is
replaced, and while universal-newline decoding means no carriage return
ever reaches the preview, a vertical tab in the file is decoded unchanged
and survives into the preview. -/
theorem preview_single_line_cex :
    ¬ ∀ (fs : FS) (p : String) (n : Nat) (text : String),
        fs.readText p = .ok text →
        ∀ c ∈ (preview_file fs p n).data, isLineBreakChar c = false := by
  intro h
  have hc := h fsVt "data/vt.txt" 200 "a\x0bb" rfl '\x0b' (by decide)
  exact absurd hc (by decide)

/-- Claim C6 (amended): for every successfully decoded file,
`preview_file` replaces every LF character of the truncated content with a
single space and leaves every other character unchanged; CR never appears
in decoded text (universal newlines already turned it into LF), but the
line-break characters decoding leaves in place (vertical tab, form feed,
NEL, U+2028, U+2029, ...) are preserved, so the preview contains no LF
character yet is not necessarily a single line. -/
theorem preview_newline_replacement (fs : FS) (p text : String) (n : Nat)
    (h : fs.readText p = .ok text) :
    '\n' ∉ (preview_file fs p n).data ∧
    ∀ i : Nat, (preview_file fs p n).data[i]? =
      ((pySlice text n).data[i]?).map (fun c => if c = '\n' then ' ' else c) := by
  constructor
  · simp only [preview_file, h]
    exact newline_not_mem_replaceNewlines _
  · intro i
    simp only [preview_file, h, replaceNewlines]
    exact List.getElem?_map _ _ _

theorem preview_newline_replacement_witness :
    '\n' ∉ (preview_file fsVt "data/vt.txt" 200).data ∧
    ∀ i : Nat, (preview_file fsVt "data/vt.txt" 200).data[i]? =
      ((pySlice "a\x0bb" 200).data[i]?).map
        (fun c => if c = '\n' then ' ' else c) :=
  preview_newline_replacement fsVt "data/vt.txt" "a\x0bb" 200 rfl

/-- Claim C7: for every file path `p`, `process_file` returns a record
whose `entities` and `relations` are empty, whose `provenance` maps
`source` to the path string, whose `file` field is that same path, and
whose `preview` field is the bounded preview; all five fields are present
by construction of `FileRecord`. -/
theorem process_file_record_fields (fs : FS) (p : String) :
    (process_file fs p).entities = [] ∧
    (process_file fs p).relations = [] ∧
    (process_file fs p).provenance = { source := p } ∧
    (process_file fs p).file = p ∧
    (process_file fs p).preview = preview_file fs p 200 :=
  ⟨rfl, rfl, rfl, rfl, rfl⟩

/-- Claim C8: for every sequence of paths, `process_files` produces a
result set whose `files` is exactly `process_file` mapped over the paths
in order — same length (no short-circuiting or truncation on a failed
preview, since this holds for every filesystem, including ones whose
reads all fail), no deduplication, and the `file` field of the records
reproduces the input paths in order. -/
theorem process_files_maps_in_order (fs : FS) (paths : List String) :
    (process_files fs paths).files = paths.map (process_file fs) ∧
    (process_files fs paths).files.length = paths.length ∧
    (process_files fs paths).files.map (fun r => r.file) = paths := by
  have hmap : (process_files fs paths).files = paths.map (process_file fs) := by
    simpa [process_files] using foldl_append_records fs paths []
  refine ⟨hmap, ?_, ?_⟩
  · rw [hmap]
    simp
  · rw [hmap, List.map_map]
    have hc : ((fun r : FileRecord => r.file) ∘ process_file fs) =
        fun p : String => p :=
      funext fun p => rfl
    rw [hc, List.map_id']

/-- Claim C3: for every directory path, `list_files` returns exactly the
regular files directly contained in it (a permutation of the filtered
entry list, so subdirectories and non-regular entries are excluded),
sorted by filename in the locale-independent code-point order `strLe`;
and the result depends only on the directory's node and entries, so two
calls on an unchanged filesystem yield identical ordered results. -/
theorem list_files_sorted_deterministic (fs : FS) (d : String)
    (h : fs.node d = some NodeKind.dir) :
    ∃ l, list_files fs d = .ok l ∧
      l.Perm ((fs.children d).filter (fun e => e.kind == NodeKind.file)) ∧
      List.Pairwise (fun a b : Entry => strLe a.name b.name = true) l ∧
      ∀ fs' : FS, fs'.node d = fs.node d → fs'.children d = fs.children d →
        list_files fs' d = list_files fs d := by
  refine ⟨((fs.children d).filter (fun e => e.kind == NodeKind.file)).mergeSort
      (fun a b => strLe a.name b.name), ?_, ?_, ?_, ?_⟩
  · simp [list_files, h]
  · exact List.mergeSort_perm _ _
  · apply List.sorted_mergeSort
    · exact fun a b c hab hbc => strLe_trans hab hbc
    · exact fun a b => strLe_total a.name b.name
  · intro fs' h1 h2
    simp [list_files, h1, h2]

theorem list_files_sorted_deterministic_witness :
    ∃ l, list_files fsOk "data" = .ok l ∧
      l.Perm ((fsOk.children "data").filter
        (fun e => e.kind == NodeKind.file)) ∧
      List.Pairwise (fun a b : Entry => strLe a.name b.name = true) l ∧
      ∀ fs' : FS, fs'.node "data" = fsOk.node "data" →
        fs'.children "data" = fsOk.children "data" →
        list_files fs' "data" = list_files fsOk "data" :=
  list_files_sorted_deterministic fsOk "data" rfl

/-- Claim C4: for every path that does not exist, `list_files` returns
the empty sequence rather than raising, and a directory-mode run on that
path completes with exit code 0 and the result set `{"files": []}`. -/
theorem missing_dir_empty_result (fs : FS) (p : String)
    (h : fs.node p = none) :
    list_files fs p = .ok [] ∧
    ∃ r, main fs p none = .ok r ∧ r.exitCode = 0 ∧
      r.output = some { files := [] } :=
  ⟨list_files_missing fs p h, main_missing_dir_ok fs p h⟩

theorem missing_dir_empty_result_witness :
    list_files fsEmpty "nonexistent/" = .ok [] ∧
    ∃ r, main fsEmpty "nonexistent/" none = .ok r ∧ r.exitCode = 0 ∧
      r.output = some { files := [] } :=
  missing_dir_empty_result fsEmpty "nonexistent/" rfl

/-- Claim C9: when `--file` names a path that does not exist, the run
prints a log line containing `file not found`, exits with status 2, and
produces no JSON output; by contrast a missing data directory in
directory mode is not fatal and exits with status 0. -/
theorem single_file_missing_exits_2 (fs : FS) (d f : String)
    (hne : f ≠ "") (h : fs.node f = none) :
    (∃ r, main fs d (some f) = .ok r ∧ r.exitCode = 2 ∧ r.output = none ∧
      ∃ u v, r.logLines = [u ++ "file not found" ++ v]) ∧
    (∀ fs' : FS, ∀ d' : String, fs'.node d' = none →
      ∃ r, main fs' d' none = .ok r ∧ r.exitCode = 0) := by
  constructor
  · refine ⟨{ exitCode := 2
              logLines := ["[intelligence] error: file not found: " ++ f]
              output := none }, ?_, rfl, rfl,
      "[intelligence] error: ", ": " ++ f, ?_⟩
    · simp [main, hne, h]
    · have hsplit : "[intelligence] error: file not found: " ++ f =
          "[intelligence] error: " ++ "file not found" ++ (": " ++ f) := by
        apply string_eq_of_data
        simp [String.data_append]
      rw [hsplit]
  · intro fs' d' h'
    rcases main_missing_dir_ok fs' d' h' with ⟨r, hr, he, _⟩
    exact ⟨r, hr, he⟩

theorem single_file_missing_exits_2_witness :
    (∃ r, main fsEmpty "data/" (some "missing.txt") = .ok r ∧
      r.exitCode = 2 ∧ r.output = none ∧
      ∃ u v, r.logLines = [u ++ "file not found" ++ v]) ∧
    (∀ fs' : FS, ∀ d' : String, fs'.node d' = none →
      ∃ r, main fs' d' none = .ok r ∧ r.exitCode = 0) :=
  single_file_missing_exits_2 fsEmpty "data/" "missing.txt" (by decide) rfl

/-- Claim C10: `list_files` is total only for nonexistent paths and
directories: on every path that exists and is a regular file it raises
(`NotADirectoryError` from `iterdir`), while every nonexistent path or
directory yields a normal result, so the discovery error branch is
reachable. -/
theorem list_files_raises_on_regular_file (fs : FS) (p : String)
    (h : fs.node p = some NodeKind.file) :
    list_files fs p = .error "NotADirectoryError" ∧
    ∀ q, (fs.node q = none ∨ fs.node q = some NodeKind.dir) →
      ∃ l, list_files fs q = .ok l := by
  constructor
  · simp [list_files, h]
  · intro q hq
    rcases hq with hq | hq
    · exact ⟨[], list_files_missing fs q hq⟩
    · exact ⟨((fs.children q).filter (fun e => e.kind == NodeKind.file)).mergeSort
          (fun a b => strLe a.name b.name), by simp [list_files, hq]⟩

theorem list_files_raises_on_regular_file_witness :
    list_files fsOk "data/a.txt" = .error "NotADirectoryError" ∧
    ∀ q, (fsOk.node q = none ∨ fsOk.node q = some NodeKind.dir) →
      ∃ l, list_files fsOk q = .ok l :=
  list_files_raises_on_regular_file fsOk "data/a.txt" rfl

end SignalGraph
